import Mathlib

/-!
Shallow embedding of `spi_Neopixel_Christmas.py`, an LED-strip animation
engine: a packed-channel color model, a frame buffer with overscan, moving
objects (trains, raindrops, stars), per-effect state machines
(Trains, Stripes, Rain, Stars), and the startup effect list.

Python floats are modelled as rationals (`ℚ`), Python `int()` truncation as
`pyint`, Python `//` on naturals as `Nat` division and on integers as
`Int.fdiv`, and the mutable per-effect state as explicit state records with
step functions.  Randomness (`randint`, `choice`, `uniform`) is modelled by
explicit oracle arguments: every theorem quantifies over all draws.
-/

set_option autoImplicit false

/-- Python `int()` on a rational: truncation toward zero. -/
def pyint (q : ℚ) : ℤ := if 0 ≤ q then ⌊q⌋ else ⌈q⌉

/-- `grb(r, g, b)`: pack an RGB colour into a 32-bit 0GRB value. -/
def grb (r g b : ℕ) : ℕ := (g <<< 16) ||| (r <<< 8) ||| b

/-- `color_at_luma(color, luma)`: scale each packed channel by `luma / 255`,
keeping the 0GRB layout. -/
def color_at_luma (color luma : ℕ) : ℕ :=
  (((color &&& 0xff0000) * luma / 255) &&& 0xff0000)
    ||| (((color &&& 0xff00) * luma / 255) &&& 0xff00)
    ||| (((color &&& 0xff) * luma / 255) &&& 0xff)

-- Strip-level constants from the source.
def VISIBLE_LEDS : ℕ := 288
def OVERSCAN_LEDS : ℕ := 10
def BRIGHTNESS : ℕ := 15

/-- Construction parameters of `NeopixelStrip`: visible LED count, overscan
count, brightness. -/
structure StripCfg where
  leds : ℕ
  overscan : ℕ
  brightness : ℕ
deriving DecidableEq

/-- `self._min`: first index of the visible window. -/
def StripCfg.min (c : StripCfg) : ℕ := c.overscan

/-- `self._max`: one past the last index of the visible window. -/
def StripCfg.max (c : StripCfg) : ℕ := c.leds + c.overscan

/-- `self._len`: total buffer length, visible plus overscan on both ends. -/
def StripCfg.len (c : StripCfg) : ℕ := c.leds + c.overscan * 2

/-- `NeopixelStrip.display`: the slice `self._display[self._min:self._max]`
handed to the hardware state machine. -/
def NeopixelStrip.display (c : StripCfg) (b : List ℕ) : List ℕ :=
  (b.drop (StripCfg.min c)).take (StripCfg.max c - StripCfg.min c)

/-- `NeopixelStrip.clear(color)`: the loop
`for pos in range(self._min, self._max + 1): self._display[pos] = color`. -/
def NeopixelStrip.clear (c : StripCfg) (color : ℕ) (b : List ℕ) : List ℕ :=
  (List.range' (StripCfg.min c) (StripCfg.max c + 1 - StripCfg.min c)).foldl
    (fun d pos => d.set pos color) b

-- Trains-effect constants from the source.
def MAX_TRAINS : ℕ := 4
def TRAIN_FALLOFF : ℕ := 2
def NEW_TRAIN_PROBABILITY_PCT : ℕ := 80
def TRAIN_WIDTH_MIN : ℕ := 8
def TRAIN_WIDTH_MAX : ℕ := 24

/-- State of one `Train` object: packed colour, half width, speed and
(possibly fractional) position. -/
structure Train where
  rgb : ℕ
  halfwidth : ℕ
  speed : ℚ
  pos : ℚ
deriving DecidableEq

/-- `Train.__init__(rgb, width, speed, pos)`: half width is `width // 2`. -/
def Train.mkWidth (rgb width : ℕ) (speed pos : ℚ) : Train :=
  { rgb := rgb, halfwidth := width / 2, speed := speed, pos := pos }

/-- `Train.move`: `self._pos += self._speed`. -/
def Train.move (t : Train) : Train := { t with pos := t.pos + t.speed }

/-- `Train.min`: `self._pos - self._halfwidth`. -/
def Train.min (t : Train) : ℚ := t.pos - t.halfwidth

/-- `Train.max`: `self._pos + self._halfwidth`. -/
def Train.max (t : Train) : ℚ := t.pos + t.halfwidth

/-- The intensity computed inside `Train.color_at`:
`int(((max(halfwidth - distance, 0) / halfwidth) ** TRAIN_FALLOFF) * 255)`
(`Nat` subtraction is exactly `max(halfwidth - distance, 0)`). -/
def trainIntensity (hw distance : ℕ) : ℕ :=
  (⌊(((hw - distance : ℕ) : ℚ) / (hw : ℚ)) ^ TRAIN_FALLOFF * 255⌋).toNat

/-- `Train.color_at(p)`: black beyond the half width, otherwise the base
colour scaled by the quadratic-falloff intensity. -/
def Train.color_at (t : Train) (p : ℤ) : ℕ :=
  let distance := (pyint t.pos - p).natAbs
  if t.halfwidth < distance then 0
  else color_at_luma t.rgb (trainIntensity t.halfwidth distance)

/-- Construction parameters of `NeopixelTrains`: the strip, the colour
palette and the train cap. -/
structure TrainsCfg where
  strip : StripCfg
  colors : List ℕ
  maxTrains : ℕ
deriving DecidableEq

/-- The random draws one `NeopixelTrains.move` step consumes:
`randint(1, 100)`, `randint(TRAIN_WIDTH_MIN, TRAIN_WIDTH_MAX)`, the index
`choice` picks in the palette, and the speed `choice([0.5, 1, 2])` picks. -/
structure TrainsRand where
  r : ℕ
  width : ℕ
  colorIdx : ℕ
  speed : ℚ
deriving DecidableEq

/-- Mutable state of a `NeopixelTrains` effect: expired flag, train list,
display buffer. -/
structure TrainsState where
  expired : Bool
  trains : List Train
  display : List ℕ
deriving DecidableEq

/-- `NeopixelTrains.reinit`: clear the expired flag, empty the train list. -/
def NeopixelTrains.reinit (s : TrainsState) : TrainsState :=
  { s with expired := false, trains := [] }

/-- `NeopixelStrip.set_expired` as inherited by `NeopixelTrains`. -/
def NeopixelTrains.set_expired (s : TrainsState) : TrainsState :=
  { s with expired := true }

/-- The train appended on a successful spawn:
`Train(choice(colors), width=width, speed=choice([0.5, 1, 2]), pos=-width // 2)`. -/
def newTrain (cfg : TrainsCfg) (rnd : TrainsRand) : Train :=
  Train.mkWidth (cfg.colors.getD rnd.colorIdx 0) rnd.width rnd.speed
    ((Int.fdiv (-(rnd.width : ℤ)) 2 : ℤ) : ℚ)

/-- The train list after the per-frame advance and removal steps of
`NeopixelTrains.move`: every train moves, then trains whose `min()` has
passed `self._max` are dropped. -/
def trainsKept (cfg : TrainsCfg) (s : TrainsState) : List Train :=
  (s.trains.map Train.move).filter
    (fun t => decide (Train.min t ≤ (StripCfg.max cfg.strip : ℚ)))

/-- `NeopixelTrains.move`: advance and filter the trains, then spawn one new
train when not expired, below the cap, and the percentage draw succeeds. -/
def NeopixelTrains.move (cfg : TrainsCfg) (rnd : TrainsRand)
    (s : TrainsState) : TrainsState :=
  let kept := trainsKept cfg s
  if s.expired = false ∧ kept.length < cfg.maxTrains
      ∧ rnd.r ≤ NEW_TRAIN_PROBABILITY_PCT then
    { s with trains := kept ++ [newTrain cfg rnd] }
  else
    { s with trains := kept }

/-- The index range of the render loop for one train:
`range(max(floor(train.min()), 0), min(ceil(train.max()), self._len - 1))`. -/
def trainRange (len : ℕ) (t : Train) : List ℕ :=
  let a := Max.max ⌊Train.min t⌋ 0
  let b := Min.min ⌈Train.max t⌉ ((len : ℤ) - 1)
  List.range' a.toNat (b - a).toNat

/-- `NeopixelTrains.render`: zero the whole buffer, then OR in each train's
brightness-scaled colours over its index range. -/
def NeopixelTrains.render (cfg : TrainsCfg) (s : TrainsState) : TrainsState :=
  let disp := s.trains.foldl
    (fun d t =>
      (trainRange (StripCfg.len cfg.strip) t).foldl
        (fun d led =>
          d.set led
            (d.getD led 0 |||
              color_at_luma (Train.color_at t (led : ℤ)) cfg.strip.brightness))
        d)
    (List.replicate (StripCfg.len cfg.strip) 0)
  { s with display := disp }

/-- The operations the scheduler performs on a `NeopixelTrains` effect. -/
inductive TrainsOp where
  | reinit : TrainsOp
  | render : TrainsOp
  | move : TrainsRand → TrainsOp
  | setExpired : TrainsOp
deriving DecidableEq

/-- One scheduler-visible step of a `NeopixelTrains` effect. -/
def trainsStep (cfg : TrainsCfg) (s : TrainsState) : TrainsOp → TrainsState
  | TrainsOp.reinit => NeopixelTrains.reinit s
  | TrainsOp.render => NeopixelTrains.render cfg s
  | TrainsOp.move rnd => NeopixelTrains.move cfg rnd s
  | TrainsOp.setExpired => NeopixelTrains.set_expired s

/-- Run a sequence of operations on a `NeopixelTrains` effect. -/
def trainsRun (cfg : TrainsCfg) (ops : List TrainsOp)
    (s : TrainsState) : TrainsState :=
  ops.foldl (trainsStep cfg) s

-- Stripes-effect constants from the source.
def STRIPES_WIDTH_MIN : ℕ := 6
def STRIPES_WIDTH_MAX : ℕ := 16
def STRIPES_WAIT_MIN : ℕ := 20
def STRIPES_WAIT_MAX : ℕ := 80

/-- Construction parameters of `NeopixelStripes`: strip, the two colours and
the optional fixed width/wait overrides. -/
structure StripesCfg where
  strip : StripCfg
  color1 : ℕ
  color2 : ℕ
  init_width : Option ℕ
  init_wait : Option ℕ
deriving DecidableEq

/-- The random draws `NeopixelStripes.reinit` consumes:
`randint(STRIPES_WIDTH_MIN, STRIPES_WIDTH_MAX)` and
`randint(STRIPES_WAIT_MIN, STRIPES_WAIT_MAX)`. -/
structure StripesRand where
  width : ℕ
  wait : ℕ
deriving DecidableEq

/-- Mutable state of a `NeopixelStripes` effect. -/
structure StripesState where
  expired : Bool
  width : ℕ
  wait : ℕ
  offset : ℕ
  display : List ℕ
deriving DecidableEq

/-- Python's `a or b` on an optional number: the right operand wins when the
left is `None` or `0` (both falsy). -/
def pyOrNat (a : Option ℕ) (b : ℕ) : ℕ :=
  match a with
  | none => b
  | some n => if n = 0 then b else n

/-- The offset update inside `NeopixelStripes._next_color`:
`offset += 1; if offset >= width * 2: offset = 0`. -/
def nextOffset (w o : ℕ) : ℕ := if w * 2 ≤ o + 1 then 0 else o + 1

/-- The colour returned by `NeopixelStripes._next_color` at offset `o`:
the first colour for the first `width` offsets, then the second. -/
def nextColorVal (cfg : StripesCfg) (w o : ℕ) : ℕ :=
  if o < w then color_at_luma cfg.color1 cfg.strip.brightness
  else color_at_luma cfg.color2 cfg.strip.brightness

/-- The fill loop of `NeopixelStripes.reinit`
(`for led in range(0, self._len): self._display[led] = self._next_color()`):
returns the written cells and the final offset. -/
def stripesFill (cfg : StripesCfg) (w : ℕ) : ℕ → ℕ → List ℕ × ℕ
  | 0, o => ([], o)
  | n + 1, o =>
    let rest := stripesFill cfg w n (nextOffset w o)
    (nextColorVal cfg w o :: rest.1, rest.2)

/-- `NeopixelStripes.reinit`: clear the expired flag, draw width and wait
(construction overrides win when nonzero), reset the offset to 0 and fill
the whole buffer from `_next_color`. -/
def NeopixelStripes.reinit (cfg : StripesCfg) (rnd : StripesRand)
    (_s : StripesState) : StripesState :=
  let w := pyOrNat cfg.init_width rnd.width
  let fill := stripesFill cfg w (StripCfg.len cfg.strip) 0
  { expired := false, width := w, wait := pyOrNat cfg.init_wait rnd.wait,
    offset := fill.2, display := fill.1 }

/-- `NeopixelStripes.move`: shift the buffer left by one
(`display[:-1] = display[1:]`) and compute the last cell from
`_next_color`. -/
def NeopixelStripes.move (cfg : StripesCfg) (s : StripesState) : StripesState :=
  { s with display := s.display.drop 1 ++ [nextColorVal cfg s.width s.offset],
           offset := nextOffset s.width s.offset }

-- Rain-effect constants from the source.
def NEW_RAIN_DROP_PCT : ℕ := 15
def RAIN_MAX_DROPS : ℕ := 8
def RAIN_MAX_SIZE : ℕ := 12

/-- State of one `RainDrop` object. -/
structure RainDrop where
  pos : ℤ
  color : ℕ
  max_size : ℕ
  current_size : ℕ
  target_size : ℕ
deriving DecidableEq

/-- `RainDrop.__init__(pos, color, max_size)`: starts at size 0 growing
toward `max_size`. -/
def RainDrop.mkNew (pos : ℤ) (color max_size : ℕ) : RainDrop :=
  { pos := pos, color := color, max_size := max_size,
    current_size := 0, target_size := max_size }

/-- `RainDrop.move`: grow by one toward the target (switching the target to 0
on arrival), else shrink by one toward 0. -/
def RainDrop.move (d : RainDrop) : RainDrop :=
  if d.current_size < d.target_size then
    let c := d.current_size + 1
    if d.target_size ≤ c then { d with current_size := c, target_size := 0 }
    else { d with current_size := c }
  else if 0 < d.current_size then { d with current_size := d.current_size - 1 }
  else d

/-- `RainDrop.finished`: shrunk back to nothing. -/
def RainDrop.finished (d : RainDrop) : Bool :=
  d.current_size == 0 && d.target_size == 0

/-- `RainDrop.color_at_offset(offset)`: the drop's colour at the intensity
`int(((max(current_size - offset, 0) / max_size) ** TRAIN_FALLOFF) * 255)`. -/
def RainDrop.color_at_offset (d : RainDrop) (offset : ℕ) : ℕ :=
  color_at_luma d.color
    ((⌊(((d.current_size - offset : ℕ) : ℚ) / (d.max_size : ℚ))
        ^ TRAIN_FALLOFF * 255⌋).toNat)

/-- Construction parameters of `NeopixelRain`. -/
structure RainCfg where
  strip : StripCfg
  colors : List ℕ
deriving DecidableEq

/-- The random draws one `NeopixelRain.move` step consumes: `randint(1, 100)`,
`randint(self._min, self._max)`, the palette index of `choice`, and
`randint(5, RAIN_MAX_SIZE)`. -/
structure RainRand where
  r : ℕ
  pos : ℤ
  colorIdx : ℕ
  maxSize : ℕ
deriving DecidableEq

/-- Mutable state of a `NeopixelRain` effect. -/
structure RainState where
  expired : Bool
  drops : List RainDrop
  display : List ℕ
deriving DecidableEq

/-- `NeopixelRain.reinit`: clear the expired flag, empty the drop list. -/
def NeopixelRain.reinit (s : RainState) : RainState :=
  { s with expired := false, drops := [] }

/-- `NeopixelStrip.set_expired` as inherited by `NeopixelRain`. -/
def NeopixelRain.set_expired (s : RainState) : RainState :=
  { s with expired := true }

/-- The drop list after the per-frame animate and removal steps of
`NeopixelRain.move`. -/
def rainKept (s : RainState) : List RainDrop :=
  (s.drops.map RainDrop.move).filter (fun d => !(RainDrop.finished d))

/-- `NeopixelRain.move`: animate and filter the drops, then spawn one new
drop when not expired, below `RAIN_MAX_DROPS`, and the percentage draw
succeeds (`randint(1, 100) < NEW_RAIN_DROP_PCT`). -/
def NeopixelRain.move (cfg : RainCfg) (rnd : RainRand)
    (s : RainState) : RainState :=
  let kept := rainKept s
  if s.expired = false ∧ kept.length < RAIN_MAX_DROPS
      ∧ rnd.r < NEW_RAIN_DROP_PCT then
    { s with drops := kept ++
        [RainDrop.mkNew rnd.pos (cfg.colors.getD rnd.colorIdx 0) rnd.maxSize] }
  else
    { s with drops := kept }

/-- The body of the render loop of `NeopixelRain.render` for one drop and one
offset: OR the drop's colour into the cells `pos - offset` (when at least
`self._min`) and `pos + offset` (when at most `self._max`). -/
def rainRenderCell (cfg : RainCfg) (drop : RainDrop) (d : List ℕ)
    (offset : ℕ) : List ℕ :=
  let color := RainDrop.color_at_offset drop offset
  let lo := drop.pos - (offset : ℤ)
  let hi := drop.pos + (offset : ℤ)
  let d :=
    if (StripCfg.min cfg.strip : ℤ) ≤ lo then
      d.set lo.toNat (d.getD lo.toNat 0 ||| color)
    else d
  if hi ≤ (StripCfg.max cfg.strip : ℤ) then
    d.set hi.toNat (d.getD hi.toNat 0 ||| color)
  else d

/-- `NeopixelRain.render`: zero the whole buffer, then for each drop OR its
colours over offsets `range(0, drop.current_size - 1)` radiating from the
drop's position. -/
def NeopixelRain.render (cfg : RainCfg) (s : RainState) : RainState :=
  let disp := s.drops.foldl
    (fun d drop =>
      (List.range (drop.current_size - 1)).foldl (rainRenderCell cfg drop) d)
    (List.replicate (StripCfg.len cfg.strip) 0)
  { s with display := disp }

/-- The operations the scheduler performs on a `NeopixelRain` effect. -/
inductive RainOp where
  | reinit : RainOp
  | render : RainOp
  | move : RainRand → RainOp
  | setExpired : RainOp
deriving DecidableEq

/-- One scheduler-visible step of a `NeopixelRain` effect. -/
def rainStep (cfg : RainCfg) (s : RainState) : RainOp → RainState
  | RainOp.reinit => NeopixelRain.reinit s
  | RainOp.render => NeopixelRain.render cfg s
  | RainOp.move rnd => NeopixelRain.move cfg rnd s
  | RainOp.setExpired => NeopixelRain.set_expired s

/-- Run a sequence of operations on a `NeopixelRain` effect. -/
def rainRun (cfg : RainCfg) (ops : List RainOp) (s : RainState) : RainState :=
  ops.foldl (rainStep cfg) s

-- Stars-effect constants from the source.
def STAR_MIN_LUMA : ℤ := 0
def STAR_MAX_LUMA : ℤ := 191
def STAR_LUMA_DELTA : ℤ := 16
def STARS_MIN : ℕ := 10
def STARS_MAX : ℕ := 25

/-- State of one `Star` object (named `StarObj` here: `Star` is taken). -/
structure StarObj where
  pos : ℤ
  color : ℕ
  luma_delta : ℤ
  luma : ℤ
deriving DecidableEq

/-- `Star.__init__(pos, color)` with the `randint(STAR_MIN_LUMA,
STAR_MAX_LUMA - 1)` draw passed in: always starts getting brighter. -/
def StarObj.mkNew (pos : ℤ) (color : ℕ) (luma : ℤ) : StarObj :=
  { pos := pos, color := color, luma_delta := STAR_LUMA_DELTA, luma := luma }

/-- `Star.twinkle`: bounce the luma between the bounds by `luma_delta`. -/
def StarObj.twinkle (st : StarObj) : StarObj :=
  let luma := Max.max (Min.min (st.luma + st.luma_delta) STAR_MAX_LUMA)
    STAR_MIN_LUMA
  if luma ≤ STAR_MIN_LUMA ∨ STAR_MAX_LUMA ≤ luma then
    { st with luma := luma, luma_delta := -st.luma_delta }
  else
    { st with luma := luma }

/-- Mutable state of a `NeopixelStars` effect. -/
structure StarsState where
  expired : Bool
  stars : List StarObj
  display : List ℕ
deriving DecidableEq

/-- `NeopixelStars.reinit`: rebuild the star list with `self._num_stars`
fresh random stars.  The override does NOT call the base `reinit`, so the
expired flag and the display buffer are left untouched. -/
def NeopixelStars.reinit (numStars : ℕ) (rnd : ℕ → ℤ × ℕ × ℤ)
    (s : StarsState) : StarsState :=
  let stars := (List.range numStars).map
    (fun i => StarObj.mkNew (rnd i).1 (rnd i).2.1 (rnd i).2.2)
  { s with stars := stars }

-- Named colour values from the source.
def BLACK : ℕ := grb 0 0 0
def BLUE : ℕ := grb 0 0 255
def WHITE : ℕ := grb 255 255 255
def RED : ℕ := grb 255 0 0
def GREEN : ℕ := grb 0 255 0
def CYAN : ℕ := grb 0 255 255
def YELLOW : ℕ := grb 255 255 0
def MAGENTA : ℕ := grb 255 0 255
def DARK_GREEN : ℕ := grb 0 63 0

/-- The kind and palette of one effect instance built at startup. -/
inductive EffectSpec where
  | trainsE : List ℕ → EffectSpec
  | stripesE : ℕ → ℕ → EffectSpec
  | rainE : List ℕ → EffectSpec
  | starsE : List ℕ → EffectSpec
deriving DecidableEq

/-- Whether an effect instance is a `NeopixelStars`. -/
def EffectSpec.isStars : EffectSpec → Bool
  | EffectSpec.starsE _ => true
  | _ => false

def TRAINS_COLORS : List (List ℕ) :=
  [[BLUE, WHITE, CYAN], [RED, WHITE], [RED, GREEN], [RED, WHITE, BLUE]]

/-- `trains_effects`: one `NeopixelTrains` per palette in `TRAINS_COLORS`. -/
def trains_effects : List EffectSpec := TRAINS_COLORS.map EffectSpec.trainsE

def STRIPES_COLORS : List (ℕ × ℕ) :=
  [(WHITE, BLUE), (GREEN, RED), (RED, WHITE), (DARK_GREEN, YELLOW)]

/-- `stripes_effects`: one `NeopixelStripes` per pair in `STRIPES_COLORS`. -/
def stripes_effects : List EffectSpec :=
  STRIPES_COLORS.map (fun p => EffectSpec.stripesE p.1 p.2)

def RAIN_COLORS : List (List ℕ) :=
  [[CYAN], [BLUE, CYAN], [WHITE, CYAN],
   [RED, YELLOW, DARK_GREEN, BLUE, CYAN, MAGENTA]]

/-- `rain_effects`: one `NeopixelRain` per palette in `RAIN_COLORS`. -/
def rain_effects : List EffectSpec := RAIN_COLORS.map EffectSpec.rainE

def STARS_COLORS : List (List ℕ) :=
  [[CYAN, WHITE], [BLUE, CYAN, WHITE], [YELLOW, WHITE]]

/-- `stars_effects`: one `NeopixelStars` per palette in `STARS_COLORS`. -/
def stars_effects : List EffectSpec := STARS_COLORS.map EffectSpec.starsE

/-- `effects`: the list the scheduler's `choice(effects)` draws from. -/
def effects : List EffectSpec :=
  trains_effects ++ stripes_effects ++ rain_effects

/-! ### Helper lemmas -/

/-- Scaling any colour by luma 0 gives black. -/
theorem color_at_luma_zero (c : ℕ) : color_at_luma c 0 = 0 := by
  simp [color_at_luma]

/-- `trainIntensity` written with rational instead of truncated natural
subtraction, valid on the non-black branch. -/
theorem trainIntensity_cast (hw d : ℕ) (h : d ≤ hw) :
    trainIntensity hw d =
      (⌊(((hw : ℚ) - (d : ℚ)) / (hw : ℚ)) ^ 2 * 255⌋).toNat := by
  unfold trainIntensity TRAIN_FALLOFF
  rw [Nat.cast_sub h]

/-- C1: for every train with positive half width `hw` and every integer cell
position `p`, with `distance = |int(pos) - p|`: beyond the half width
`color_at` is black, otherwise it is the base colour scaled by the intensity
`int(((hw - distance) / hw) ^ 2 * 255)`; concretely, a train with `hw = 4`
and truncated position 0 gives full intensity at cell 0, black at cell 4,
and luma 63 at cell 2. -/
theorem c1_train_color_at_law (t : Train) (_hhw : 0 < t.halfwidth) :
    (∀ p : ℤ,
      (t.halfwidth < (pyint t.pos - p).natAbs → Train.color_at t p = 0) ∧
      ((pyint t.pos - p).natAbs ≤ t.halfwidth →
        Train.color_at t p =
          color_at_luma t.rgb
            ((⌊(((t.halfwidth : ℚ) - (((pyint t.pos - p).natAbs : ℕ) : ℚ)) /
                (t.halfwidth : ℚ)) ^ 2 * 255⌋).toNat))) ∧
    (t.halfwidth = 4 → pyint t.pos = 0 →
      Train.color_at t 0 = color_at_luma t.rgb 255 ∧
      Train.color_at t 4 = 0 ∧
      Train.color_at t 2 = color_at_luma t.rgb 63) := by
  constructor
  · intro p
    constructor
    · intro hd
      simp only [Train.color_at]
      rw [if_pos hd]
    · intro hd
      simp only [Train.color_at]
      rw [if_neg (not_lt.mpr hd), trainIntensity_cast _ _ hd]
  · intro h4 hp
    refine ⟨?_, ?_, ?_⟩ <;> simp only [Train.color_at, hp, h4]
    · norm_num
      congr 1
      norm_num [trainIntensity, TRAIN_FALLOFF]
      rfl
    · rw [show ((0:ℤ) - 4).natAbs = 4 by decide]
      rw [if_neg (by norm_num)]
      rw [show trainIntensity 4 4 = 0 by norm_num [trainIntensity, TRAIN_FALLOFF]]
      exact color_at_luma_zero _
    · rw [show ((0:ℤ) - 2).natAbs = 2 by decide]
      rw [if_neg (by norm_num)]
      congr 1
      norm_num [trainIntensity, TRAIN_FALLOFF]
      rfl

/-- C1 witness: the law applied to a concrete red train of half width 4 at
position 0, evaluated at cell 2. -/
theorem c1_train_color_at_law_witness :
    Train.color_at { rgb := grb 255 0 0, halfwidth := 4, speed := 1, pos := 0 } 2
      = color_at_luma (grb 255 0 0) 63 :=
  ((c1_train_color_at_law
      { rgb := grb 255 0 0, halfwidth := 4, speed := 1, pos := 0 }
      (by decide)).2 rfl (by norm_num [pyint])).2.2

/-- C2 counterexample: the claim asserts the intensity is nonzero for every
distance up to and including the half width, but at `distance = hw = 4`
(a distance not greater than the half width) the code computes intensity 0. -/
theorem c2_counterexample : trainIntensity 4 4 = 0 ∧ (4 : ℕ) ≤ 4 :=
  ⟨by norm_num [trainIntensity, TRAIN_FALLOFF], le_refl 4⟩

/-- C2 amended: for half widths in the program's range (`1 ≤ hw ≤ 15`; the
source always has `4 ≤ hw ≤ 12`), the train intensity is monotonically
non-increasing in the distance, and it equals 0 exactly when the distance is
at least `hw` (not: strictly greater than `hw`). -/
theorem c2_intensity_monotone_zero (hw : ℕ) (h1 : 1 ≤ hw) (h15 : hw ≤ 15) :
    (∀ d d' : ℕ, d ≤ d' → trainIntensity hw d' ≤ trainIntensity hw d) ∧
    (∀ d : ℕ, trainIntensity hw d = 0 ↔ hw ≤ d) := by
  have hhw : (0 : ℚ) < (hw : ℚ) := by exact_mod_cast h1
  constructor
  · intro d d' hdd
    unfold trainIntensity
    apply Int.toNat_le_toNat
    apply Int.floor_le_floor
    have hc : ((hw - d' : ℕ) : ℚ) ≤ ((hw - d : ℕ) : ℚ) := by
      exact_mod_cast Nat.sub_le_sub_left hdd hw
    have hc0 : (0 : ℚ) ≤ ((hw - d' : ℕ) : ℚ) := by positivity
    gcongr
  · intro d
    constructor
    · intro h0
      by_contra hlt
      push_neg at hlt
      have hsub : 1 ≤ hw - d := Nat.sub_pos_of_lt hlt
      have h1q : (1 : ℚ) ≤ ((hw - d : ℕ) : ℚ) := by exact_mod_cast hsub
      have h15q : (hw : ℚ) ≤ 15 := by exact_mod_cast h15
      have hstep : (1 : ℚ) / (hw : ℚ) ≤ ((hw - d : ℕ) : ℚ) / (hw : ℚ) := by
        gcongr
      have hlow : (1 : ℚ) ≤ ((1 : ℚ) / (hw : ℚ)) ^ 2 * 255 := by
        rw [div_pow, one_pow, div_mul_eq_mul_div, one_mul, le_div_iff₀ (by positivity)]
        nlinarith
      have hmono : ((1 : ℚ) / (hw : ℚ)) ^ 2 * 255
          ≤ (((hw - d : ℕ) : ℚ) / (hw : ℚ)) ^ 2 * 255 := by
        gcongr
      have hx : (1 : ℚ) ≤ (((hw - d : ℕ) : ℚ) / (hw : ℚ)) ^ 2 * 255 :=
        le_trans hlow hmono
      have hfl : (1 : ℤ) ≤ ⌊(((hw - d : ℕ) : ℚ) / (hw : ℚ)) ^ 2 * 255⌋ := by
        rw [Int.le_floor]
        exact_mod_cast hx
      have : 1 ≤ trainIntensity hw d := by
        unfold trainIntensity TRAIN_FALLOFF
        omega
      omega
    · intro hge
      unfold trainIntensity
      rw [Nat.sub_eq_zero_of_le hge]
      norm_num [TRAIN_FALLOFF]

/-- C2 witness: the amended law applied at half width 4: monotone between
distances 3 and 5, and intensity vanishes at distance 4 but not at 3. -/
theorem c2_intensity_monotone_zero_witness :
    trainIntensity 4 5 ≤ trainIntensity 4 3 ∧
    (trainIntensity 4 4 = 0 ↔ 4 ≤ 4) :=
  ⟨(c2_intensity_monotone_zero 4 (by decide) (by decide)).1 3 5 (by decide),
   (c2_intensity_monotone_zero 4 (by decide) (by decide)).2 4⟩

/-- `trainsKept` never has more trains than the state it filters. -/
theorem trainsKept_length_le (cfg : TrainsCfg) (s : TrainsState) :
    (trainsKept cfg s).length ≤ s.trains.length := by
  unfold trainsKept
  exact le_trans (List.length_filter_le _ _) (le_of_eq (List.length_map _ _))

/-- One `trainsStep` preserves the train-count cap. -/
theorem trainsStep_cap (cfg : TrainsCfg) (s : TrainsState) (op : TrainsOp)
    (h : s.trains.length ≤ cfg.maxTrains) :
    (trainsStep cfg s op).trains.length ≤ cfg.maxTrains := by
  cases op with
  | reinit => simp [trainsStep, NeopixelTrains.reinit]
  | render => simpa [trainsStep, NeopixelTrains.render] using h
  | setExpired => simpa [trainsStep, NeopixelTrains.set_expired] using h
  | move rnd =>
    simp only [trainsStep, NeopixelTrains.move]
    split
    · rename_i hc
      simpa using hc.2.1
    · exact le_trans (trainsKept_length_le cfg s) h

/-- A whole run preserves the train-count cap. -/
theorem trainsRun_cap (cfg : TrainsCfg) (ops : List TrainsOp) :
    ∀ s : TrainsState, s.trains.length ≤ cfg.maxTrains →
      (trainsRun cfg ops s).trains.length ≤ cfg.maxTrains := by
  induction ops with
  | nil => intro s h; exact h
  | cons op ops ih =>
    intro s h
    exact ih _ (trainsStep_cap cfg s op h)

/-- `rainKept` never has more drops than the state it filters. -/
theorem rainKept_length_le (s : RainState) :
    (rainKept s).length ≤ s.drops.length := by
  unfold rainKept
  exact le_trans (List.length_filter_le _ _) (le_of_eq (List.length_map _ _))

/-- One `rainStep` preserves the drop-count cap. -/
theorem rainStep_cap (cfg : RainCfg) (s : RainState) (op : RainOp)
    (h : s.drops.length ≤ RAIN_MAX_DROPS) :
    (rainStep cfg s op).drops.length ≤ RAIN_MAX_DROPS := by
  cases op with
  | reinit => simp [rainStep, NeopixelRain.reinit]
  | render => simpa [rainStep, NeopixelRain.render] using h
  | setExpired => simpa [rainStep, NeopixelRain.set_expired] using h
  | move rnd =>
    simp only [rainStep, NeopixelRain.move]
    split
    · rename_i hc
      simpa using hc.2.1
    · exact le_trans (rainKept_length_le s) h

/-- A whole run preserves the drop-count cap. -/
theorem rainRun_cap (cfg : RainCfg) (ops : List RainOp) :
    ∀ s : RainState, s.drops.length ≤ RAIN_MAX_DROPS →
      (rainRun cfg ops s).drops.length ≤ RAIN_MAX_DROPS := by
  induction ops with
  | nil => intro s h; exact h
  | cons op ops ih =>
    intro s h
    exact ih _ (rainStep_cap cfg s op h)

/-- C3: starting from `reinit`, no sequence of reinit/render/move/set_expired
operations ever pushes the population of a Trains or Rain effect over its
cap; moreover a single `move` adds at most one object, and its result never
exceeds the larger of the surviving population and the cap (so a spawn only
happens strictly below the cap). -/
theorem c3_population_never_exceeds_cap :
    (∀ (cfg : TrainsCfg) (ops : List TrainsOp) (s : TrainsState),
      (trainsRun cfg ops (NeopixelTrains.reinit s)).trains.length
        ≤ cfg.maxTrains) ∧
    (∀ (cfg : TrainsCfg) (rnd : TrainsRand) (s : TrainsState),
      (NeopixelTrains.move cfg rnd s).trains.length
        ≤ (trainsKept cfg s).length + 1) ∧
    (∀ (cfg : TrainsCfg) (rnd : TrainsRand) (s : TrainsState),
      (NeopixelTrains.move cfg rnd s).trains.length
        ≤ Max.max (trainsKept cfg s).length cfg.maxTrains) ∧
    (∀ (cfg : RainCfg) (ops : List RainOp) (s : RainState),
      (rainRun cfg ops (NeopixelRain.reinit s)).drops.length
        ≤ RAIN_MAX_DROPS) ∧
    (∀ (cfg : RainCfg) (rnd : RainRand) (s : RainState),
      (NeopixelRain.move cfg rnd s).drops.length ≤ (rainKept s).length + 1) ∧
    (∀ (cfg : RainCfg) (rnd : RainRand) (s : RainState),
      (NeopixelRain.move cfg rnd s).drops.length
        ≤ Max.max (rainKept s).length RAIN_MAX_DROPS) := by
  refine ⟨?_, ?_, ?_, ?_, ?_, ?_⟩
  · intro cfg ops s
    exact trainsRun_cap cfg ops _ (by simp [NeopixelTrains.reinit])
  · intro cfg rnd s
    simp only [NeopixelTrains.move]
    split
    · simp
    · simp
  · intro cfg rnd s
    simp only [NeopixelTrains.move]
    split
    · rename_i hc
      simp only [List.length_append, List.length_singleton]
      exact le_max_of_le_right hc.2.1
    · exact le_max_left _ _
  · intro cfg ops s
    exact rainRun_cap cfg ops _ (by simp [NeopixelRain.reinit])
  · intro cfg rnd s
    simp only [NeopixelRain.move]
    split
    · simp
    · simp
  · intro cfg rnd s
    simp only [NeopixelRain.move]
    split
    · rename_i hc
      simp only [List.length_append, List.length_singleton]
      exact le_max_of_le_right hc.2.1
    · exact le_max_left _ _

/-- After `set_expired`, a run without `reinit` keeps the flag set and never
grows the train list. -/
theorem trainsRun_expired (cfg : TrainsCfg) (ops : List TrainsOp) :
    ∀ s : TrainsState, s.expired = true →
      (∀ op, op ∈ ops → op ≠ TrainsOp.reinit) →
      (trainsRun cfg ops s).expired = true ∧
        (trainsRun cfg ops s).trains.length ≤ s.trains.length := by
  induction ops with
  | nil => intro s he _; exact ⟨he, le_refl _⟩
  | cons op ops ih =>
    intro s he hops
    have hop := hops op (List.mem_cons_self op ops)
    have hrest : ∀ o, o ∈ ops → o ≠ TrainsOp.reinit :=
      fun o ho => hops o (List.mem_cons_of_mem op ho)
    have hstep : (trainsStep cfg s op).expired = true ∧
        (trainsStep cfg s op).trains.length ≤ s.trains.length := by
      cases op with
      | reinit => exact absurd rfl hop
      | render => exact ⟨he, le_of_eq rfl⟩
      | setExpired => exact ⟨rfl, le_refl _⟩
      | move rnd =>
        simp only [trainsStep, NeopixelTrains.move]
        rw [if_neg (by simp [he])]
        exact ⟨he, trainsKept_length_le cfg s⟩
    have := ih (trainsStep cfg s op) hstep.1 hrest
    exact ⟨this.1, le_trans this.2 hstep.2⟩

/-- After `set_expired`, a run without `reinit` keeps the flag set and never
grows the drop list. -/
theorem rainRun_expired (cfg : RainCfg) (ops : List RainOp) :
    ∀ s : RainState, s.expired = true →
      (∀ op, op ∈ ops → op ≠ RainOp.reinit) →
      (rainRun cfg ops s).expired = true ∧
        (rainRun cfg ops s).drops.length ≤ s.drops.length := by
  induction ops with
  | nil => intro s he _; exact ⟨he, le_refl _⟩
  | cons op ops ih =>
    intro s he hops
    have hop := hops op (List.mem_cons_self op ops)
    have hrest : ∀ o, o ∈ ops → o ≠ RainOp.reinit :=
      fun o ho => hops o (List.mem_cons_of_mem op ho)
    have hstep : (rainStep cfg s op).expired = true ∧
        (rainStep cfg s op).drops.length ≤ s.drops.length := by
      cases op with
      | reinit => exact absurd rfl hop
      | render => exact ⟨he, le_of_eq rfl⟩
      | setExpired => exact ⟨rfl, le_refl _⟩
      | move rnd =>
        simp only [rainStep, NeopixelRain.move]
        rw [if_neg (by simp [he])]
        exact ⟨he, rainKept_length_le s⟩
    have := ih (rainStep cfg s op) hstep.1 hrest
    exact ⟨this.1, le_trans this.2 hstep.2⟩

/-- C4: once `set_expired` has run and no `reinit` intervenes, no sequence of
operations — whatever the random draws — ever increases the population of a
Trains or Rain effect beyond what it was at expiry. -/
theorem c4_no_spawn_after_expiry
    (tcfg : TrainsCfg) (tops : List TrainsOp) (ts : TrainsState)
    (rcfg : RainCfg) (rops : List RainOp) (rs : RainState)
    (ht : ∀ op, op ∈ tops → op ≠ TrainsOp.reinit)
    (hr : ∀ op, op ∈ rops → op ≠ RainOp.reinit) :
    (trainsRun tcfg tops (NeopixelTrains.set_expired ts)).trains.length
      ≤ ts.trains.length ∧
    (rainRun rcfg rops (NeopixelRain.set_expired rs)).drops.length
      ≤ rs.drops.length :=
  ⟨(trainsRun_expired tcfg tops _ rfl ht).2,
   (rainRun_expired rcfg rops _ rfl hr).2⟩

/-- C4 witness: an expired Trains effect holding one train and an expired
Rain effect holding one drop do not grow over a subsequent `move` even though
the percentage draws succeed. -/
theorem c4_no_spawn_after_expiry_witness :
    (trainsRun { strip := { leds := 4, overscan := 1, brightness := 0 },
                 colors := [BLUE], maxTrains := 4 }
        [TrainsOp.move { r := 1, width := 8, colorIdx := 0, speed := 1 }]
        (NeopixelTrains.set_expired
          { expired := false,
            trains := [{ rgb := 0, halfwidth := 4, speed := 1, pos := 0 }],
            display := [] })).trains.length
      ≤ ([{ rgb := 0, halfwidth := 4, speed := 1, pos := 0 }] :
          List Train).length ∧
    (rainRun { strip := { leds := 4, overscan := 1, brightness := 0 },
               colors := [BLUE] }
        [RainOp.move { r := 1, pos := 2, colorIdx := 0, maxSize := 6 }]
        (NeopixelRain.set_expired
          { expired := false,
            drops := [RainDrop.mkNew 2 0 6], display := [] })).drops.length
      ≤ [RainDrop.mkNew 2 0 6].length :=
  c4_no_spawn_after_expiry _ _ _ _ _ _ (by decide) (by decide)

/-- The `_next_color` offset update always lands strictly below `width * 2`
when the width is positive. -/
theorem nextOffset_lt (w o : ℕ) (hw : 1 ≤ w) : nextOffset w o < w * 2 := by
  unfold nextOffset
  split
  · omega
  · omega

/-- On offsets in range, the `_next_color` offset update is exactly the
successor modulo `width * 2`. -/
theorem nextOffset_eq_mod (w o : ℕ) (ho : o < w * 2) :
    nextOffset w o = (o + 1) % (w * 2) := by
  unfold nextOffset
  split
  · rename_i h
    have : o + 1 = w * 2 := by omega
    rw [this, Nat.mod_self]
  · rename_i h
    rw [Nat.mod_eq_of_lt (by omega)]

/-- Iterating the offset update `k` times adds `k` modulo `width * 2`. -/
theorem nextOffset_iterate (w : ℕ) :
    ∀ (k o : ℕ), o < w * 2 →
      (nextOffset w)^[k] o = (o + k) % (w * 2) := by
  intro k
  induction k with
  | zero =>
    intro o ho
    simpa using (Nat.mod_eq_of_lt ho).symm
  | succ k ih =>
    intro o ho
    rw [Function.iterate_succ_apply, nextOffset_eq_mod w o ho,
      ih _ (Nat.mod_lt _ (by omega)), Nat.mod_add_mod]
    congr 1
    omega

/-- The cells written by the `reinit` fill loop. -/
theorem stripesFill_length (cfg : StripesCfg) (w : ℕ) :
    ∀ (n o : ℕ), (stripesFill cfg w n o).1.length = n := by
  intro n
  induction n with
  | zero => intro o; rfl
  | succ n ih =>
    intro o
    simp [stripesFill, ih]

/-- The final offset of the `reinit` fill loop is the iterated update. -/
theorem stripesFill_offset (cfg : StripesCfg) (w : ℕ) :
    ∀ (n o : ℕ), (stripesFill cfg w n o).2 = (nextOffset w)^[n] o := by
  intro n
  induction n with
  | zero => intro o; rfl
  | succ n ih =>
    intro o
    rw [Function.iterate_succ_apply]
    simpa [stripesFill] using ih (nextOffset w o)

/-- Cell `i` of the `reinit` fill, starting at an in-range offset `o`, holds
the colour of phase `(o + i) % (w * 2)`. -/
theorem stripesFill_getD (cfg : StripesCfg) (w : ℕ) (hw : 1 ≤ w) :
    ∀ (n o i : ℕ), i < n → o < w * 2 →
      (stripesFill cfg w n o).1.getD i 0
        = nextColorVal cfg w ((o + i) % (w * 2)) := by
  intro n
  induction n with
  | zero => intro o i hi _; omega
  | succ n ih =>
    intro o i hi ho
    cases i with
    | zero =>
      simp [stripesFill, Nat.mod_eq_of_lt ho]
    | succ i =>
      have hrec := ih (nextOffset w o) i (by omega)
        (nextOffset_lt w _ hw)
      simp only [stripesFill, List.getD_cons_succ]
      rw [hrec, nextOffset_eq_mod w o ho, Nat.mod_add_mod]
      have harith : o + 1 + i = o + (i + 1) := by omega
      rw [harith]

/-- `NeopixelStripes.move` leaves the width alone and applies the offset
update once; iterated, it applies the update `k` times. -/
theorem stripesMove_iterate (cfg : StripesCfg) :
    ∀ (k : ℕ) (s : StripesState),
      ((NeopixelStripes.move cfg)^[k] s).width = s.width ∧
      ((NeopixelStripes.move cfg)^[k] s).offset
        = (nextOffset s.width)^[k] s.offset := by
  intro k
  induction k with
  | zero => intro s; exact ⟨rfl, rfl⟩
  | succ k ih =>
    intro s
    rw [Function.iterate_succ_apply, Function.iterate_succ_apply]
    have h := ih (NeopixelStripes.move cfg s)
    exact ⟨h.1, h.2⟩

/-- C9: after `reinit` with a positive band width `w`, exactly `2 * w` calls
of `move` return the band-boundary phase counter (`self._offset`) to the
value it had before those calls. -/
theorem c9_stripes_phase_period (cfg : StripesCfg) (rnd : StripesRand)
    (s0 : StripesState)
    (hw : 1 ≤ (NeopixelStripes.reinit cfg rnd s0).width) :
    ((NeopixelStripes.move cfg)^[2 * (NeopixelStripes.reinit cfg rnd s0).width]
        (NeopixelStripes.reinit cfg rnd s0)).offset
      = (NeopixelStripes.reinit cfg rnd s0).offset := by
  set s := NeopixelStripes.reinit cfg rnd s0 with hs
  have hwidth : s.width = pyOrNat cfg.init_width rnd.width := rfl
  have hoffs : s.offset
      = (nextOffset (pyOrNat cfg.init_width rnd.width))^[StripCfg.len cfg.strip] 0 := by
    rw [hs]
    simp only [NeopixelStripes.reinit]
    exact stripesFill_offset cfg _ _ 0
  have hv : 1 ≤ pyOrNat cfg.init_width rnd.width := by rw [← hwidth]; exact hw
  have ho : s.offset < s.width * 2 := by
    rw [hoffs, hwidth, nextOffset_iterate _ _ 0 (by omega)]
    exact Nat.mod_lt _ (by omega)
  have hiter := stripesMove_iterate cfg (2 * s.width) s
  rw [hiter.2, nextOffset_iterate _ _ _ ho]
  have : s.offset + 2 * s.width = s.offset + s.width * 2 := by ring
  rw [this, Nat.add_mod_right]
  exact Nat.mod_eq_of_lt ho

/-- C9 witness: a concrete Stripes effect with fixed width 2, wait 1 and a
strip of total length 4: 4 moves bring the phase back. -/
theorem c9_stripes_phase_period_witness :
    ((NeopixelStripes.move
        { strip := { leds := 2, overscan := 1, brightness := 0 },
          color1 := WHITE, color2 := BLUE,
          init_width := some 2, init_wait := some 1 })^[2 * 2]
        (NeopixelStripes.reinit
          { strip := { leds := 2, overscan := 1, brightness := 0 },
            color1 := WHITE, color2 := BLUE,
            init_width := some 2, init_wait := some 1 }
          { width := 3, wait := 5 }
          { expired := true, width := 0, wait := 0, offset := 0,
            display := [] })).offset
      = (NeopixelStripes.reinit
          { strip := { leds := 2, overscan := 1, brightness := 0 },
            color1 := WHITE, color2 := BLUE,
            init_width := some 2, init_wait := some 1 }
          { width := 3, wait := 5 }
          { expired := true, width := 0, wait := 0, offset := 0,
            display := [] }).offset := by
  have h := c9_stripes_phase_period
    { strip := { leds := 2, overscan := 1, brightness := 0 },
      color1 := WHITE, color2 := BLUE,
      init_width := some 2, init_wait := some 1 }
    { width := 3, wait := 5 }
    { expired := true, width := 0, wait := 0, offset := 0, display := [] }
    (by decide)
  simpa using h

/-- C5 counterexample: the claim says every variant's `reinit` clears the
expired flag, but `NeopixelStars.reinit` does not call the base `reinit`: on
a Stars effect that was marked expired, the flag stays set after `reinit`. -/
theorem c5_stars_reinit_keeps_expired :
    (NeopixelStars.reinit 1 (fun _ => (0, 0, 0))
      { expired := true, stars := [], display := [] }).expired = true := rfl

/-- C5 amended: `reinit` clears the expired flag and resets the population
for Trains, Rain and Stripes (empty object lists; for Stripes a buffer of
full length laid out in alternating `width`-cell bands of the two colours);
for Stars it rebuilds the star list with the configured number of stars but
leaves the expired flag unchanged (the override skips the base `reinit`). -/
theorem c5_reinit_initial_state :
    (∀ s : TrainsState, (NeopixelTrains.reinit s).expired = false ∧
      (NeopixelTrains.reinit s).trains = []) ∧
    (∀ s : RainState, (NeopixelRain.reinit s).expired = false ∧
      (NeopixelRain.reinit s).drops = []) ∧
    (∀ (cfg : StripesCfg) (rnd : StripesRand) (s : StripesState),
      (NeopixelStripes.reinit cfg rnd s).expired = false ∧
      (NeopixelStripes.reinit cfg rnd s).display.length
        = StripCfg.len cfg.strip ∧
      (1 ≤ pyOrNat cfg.init_width rnd.width →
        ∀ i, i < StripCfg.len cfg.strip →
          (NeopixelStripes.reinit cfg rnd s).display.getD i 0
            = (if i % (pyOrNat cfg.init_width rnd.width * 2)
                  < pyOrNat cfg.init_width rnd.width
               then color_at_luma cfg.color1 cfg.strip.brightness
               else color_at_luma cfg.color2 cfg.strip.brightness))) ∧
    (∀ (numStars : ℕ) (rnd : ℕ → ℤ × ℕ × ℤ) (s : StarsState),
      (NeopixelStars.reinit numStars rnd s).stars.length = numStars ∧
      (NeopixelStars.reinit numStars rnd s).expired = s.expired) := by
  refine ⟨?_, ?_, ?_, ?_⟩
  · intro s; exact ⟨rfl, rfl⟩
  · intro s; exact ⟨rfl, rfl⟩
  · intro cfg rnd s
    refine ⟨rfl, ?_, ?_⟩
    · simp only [NeopixelStripes.reinit]
      exact stripesFill_length cfg _ _ _
    · intro hw i hi
      simp only [NeopixelStripes.reinit]
      rw [stripesFill_getD cfg _ hw _ _ i hi (by omega)]
      rw [Nat.zero_add]
      rfl
  · intro numStars rnd s
    constructor
    · simp [NeopixelStars.reinit]
    · rfl

/-- C5 witness: the amended statement applied to a concrete Stripes effect
(width 2, total length 4, full brightness: cell 1 lands in the first band)
and a concrete two-star Stars effect. -/
theorem c5_reinit_initial_state_witness :
    ((NeopixelStripes.reinit
        { strip := { leds := 2, overscan := 1, brightness := 255 },
          color1 := WHITE, color2 := BLUE,
          init_width := some 2, init_wait := some 1 }
        { width := 3, wait := 5 }
        { expired := true, width := 0, wait := 0, offset := 0,
          display := [] }).display.getD 1 0
      = (if 1 % (pyOrNat (some 2) 3 * 2) < pyOrNat (some 2) 3
         then color_at_luma WHITE 255 else color_at_luma BLUE 255)) ∧
    (NeopixelStars.reinit 2 (fun _ => (0, 0, 0))
      { expired := false, stars := [], display := [] }).stars.length = 2 :=
  ⟨(c5_reinit_initial_state.2.2.1
      { strip := { leds := 2, overscan := 1, brightness := 255 },
        color1 := WHITE, color2 := BLUE,
        init_width := some 2, init_wait := some 1 }
      { width := 3, wait := 5 }
      { expired := true, width := 0, wait := 0, offset := 0,
        display := [] }).2.2 (by decide) 1 (by decide),
   (c5_reinit_initial_state.2.2.2 2 (fun _ => (0, 0, 0))
      { expired := false, stars := [], display := [] }).1⟩

/-- Writing one cell changes `getD` only at that index (and only when it is
in bounds). -/
theorem getD_set_ite (l : List ℕ) (j c i : ℕ) :
    (l.set j c).getD i 0
      = if j = i ∧ i < l.length then c else l.getD i 0 := by
  by_cases hji : j = i
  · subst hji
    by_cases hl : j < l.length
    · rw [if_pos ⟨rfl, hl⟩, List.getD_eq_getElem?_getD,
        List.getElem?_set_eq_of_lt c hl]
      rfl
    · rw [if_neg (fun h => hl h.2), List.set_eq_of_length_le (by omega)]
  · rw [if_neg (fun h => hji h.1), List.getD_eq_getElem?_getD,
      List.getElem?_set_ne hji, ← List.getD_eq_getElem?_getD]

/-- A fold of single-cell writes over an index list changes `getD` exactly on
the in-bounds listed indices. -/
theorem foldl_set_getD (c : ℕ) :
    ∀ (js : List ℕ) (b : List ℕ) (i : ℕ),
      (js.foldl (fun d j => d.set j c) b).getD i 0
        = if i ∈ js ∧ i < b.length then c else b.getD i 0 := by
  intro js
  induction js with
  | nil => intro b i; simp
  | cons j js ih =>
    intro b i
    simp only [List.foldl_cons]
    rw [ih, List.length_set, getD_set_ite]
    by_cases hmem : i ∈ js
    · by_cases hlen : i < b.length
      · rw [if_pos ⟨hmem, hlen⟩, if_pos ⟨List.mem_cons_of_mem j hmem, hlen⟩]
      · rw [if_neg (fun h => hlen h.2), if_neg (fun h => hlen h.2),
          if_neg (fun h => hlen h.2)]
    · rw [if_neg (fun h => hmem h.1)]
      by_cases hji : j = i
      · subst hji
        by_cases hlen : j < b.length
        · rw [if_pos ⟨rfl, hlen⟩, if_pos ⟨List.mem_cons_self j js, hlen⟩]
        · rw [if_neg (fun h => hlen h.2), if_neg (fun h => hlen h.2)]
      · rw [if_neg (fun h => hji h.1)]
        have : ¬(i ∈ j :: js ∧ i < b.length) := by
          intro h
          rcases List.mem_cons.mp h.1 with h1 | h2
          · exact hji h1.symm
          · exact hmem h2
        rw [if_neg this]

/-- C7: `display` hands the hardware exactly the visible window: the result
has `leds` cells, cell `i` of it is buffer cell `overscan + i`, and in the
concrete 10-visible/2-overscan scenario the exposed cells are exactly
indices 2 through 11. -/
theorem c7_display_exactly_visible_window (cfg : StripCfg) (b : List ℕ)
    (hlen : b.length = StripCfg.len cfg) :
    (NeopixelStrip.display cfg b).length = cfg.leds ∧
    (∀ i, i < cfg.leds →
      (NeopixelStrip.display cfg b).getD i 0 = b.getD (cfg.overscan + i) 0) ∧
    NeopixelStrip.display { leds := 10, overscan := 2, brightness := 0 }
        (List.range 14) = [2, 3, 4, 5, 6, 7, 8, 9, 10, 11] := by
  have hms : StripCfg.max cfg - StripCfg.min cfg = cfg.leds := by
    simp [StripCfg.max, StripCfg.min]
  refine ⟨?_, ?_, ?_⟩
  · simp only [NeopixelStrip.display, hms, List.length_take, List.length_drop]
    rw [hlen]
    simp only [StripCfg.len, StripCfg.min]
    omega
  · intro i hi
    simp only [NeopixelStrip.display, hms]
    rw [List.getD_eq_getElem?_getD, List.getElem?_take, if_pos hi,
      List.getElem?_drop, ← List.getD_eq_getElem?_getD]
    rfl
  · decide

/-- C7 witness: the window law applied to the concrete 14-cell buffer
`[0, …, 13]` with 10 visible cells and overscan 2, read at window cell 3. -/
theorem c7_display_exactly_visible_window_witness :
    (NeopixelStrip.display { leds := 10, overscan := 2, brightness := 0 }
        (List.range 14)).getD 3 0 = (List.range 14).getD (2 + 3) 0 :=
  (c7_display_exactly_visible_window
      { leds := 10, overscan := 2, brightness := 0 }
      (List.range 14) (by decide)).2.1 3 (by decide)

/-- A fold of single-cell writes never changes the buffer length. -/
theorem foldl_set_length (c : ℕ) :
    ∀ (js : List ℕ) (b : List ℕ),
      (js.foldl (fun d j => d.set j c) b).length = b.length := by
  intro js
  induction js with
  | nil => intro b; rfl
  | cons j js ih =>
    intro b
    simp only [List.foldl_cons]
    rw [ih, List.length_set]

/-- C8 counterexample: with 10 visible cells and overscan 2, the claim says
`clear(5)` leaves trail-out cell 12 unchanged, but the code's loop runs to
`self._max` inclusive and overwrites it. -/
theorem c8_clear_counterexample :
    (NeopixelStrip.clear { leds := 10, overscan := 2, brightness := 0 } 5
        (List.replicate 14 7)).getD 12 0 = 5 ∧
    (List.replicate 14 7).getD 12 0 = 7 := by decide

/-- C8 amended: `clear(c)` sets exactly the cells `[overscan,
overscan + leds]` — the visible window plus one extra cell, the first
trail-out cell (the loop bound is `self._max + 1`) — and leaves every other
cell unchanged. -/
theorem c8_clear_visible_window_plus_one (cfg : StripCfg) (c : ℕ)
    (b : List ℕ) (_hlen : b.length = StripCfg.len cfg) :
    (NeopixelStrip.clear cfg c b).length = b.length ∧
    (∀ i, i < b.length →
      (NeopixelStrip.clear cfg c b).getD i 0
        = if cfg.overscan ≤ i ∧ i ≤ cfg.overscan + cfg.leds then c
          else b.getD i 0) := by
  constructor
  · exact foldl_set_length c _ b
  · intro i hi
    unfold NeopixelStrip.clear
    rw [foldl_set_getD]
    have hmem : i ∈ List.range' (StripCfg.min cfg)
          (StripCfg.max cfg + 1 - StripCfg.min cfg)
        ↔ (cfg.overscan ≤ i ∧ i ≤ cfg.overscan + cfg.leds) := by
      rw [List.mem_range'_1]
      simp only [StripCfg.min, StripCfg.max]
      omega
    by_cases hc : cfg.overscan ≤ i ∧ i ≤ cfg.overscan + cfg.leds
    · rw [if_pos ⟨hmem.mpr hc, hi⟩, if_pos hc]
    · rw [if_neg (fun h => hc (hmem.mp h.1)), if_neg hc]

/-- C8 witness: the amended law applied to the concrete 14-cell buffer of
sevens, read at the first trail-out cell 12, which the loop does overwrite. -/
theorem c8_clear_visible_window_plus_one_witness :
    (NeopixelStrip.clear { leds := 10, overscan := 2, brightness := 0 } 5
        (List.replicate 14 7)).getD 12 0
      = if 2 ≤ 12 ∧ 12 ≤ 2 + 10 then 5 else (List.replicate 14 7).getD 12 0 :=
  (c8_clear_visible_window_plus_one
      { leds := 10, overscan := 2, brightness := 0 } 5
      (List.replicate 14 7) (by decide)).2 12 (by decide)

/-- C6: the Trains spawn threshold in the source is 80, so a below-cap,
non-expired Trains effect spawns on a draw of 50 — the spawn chance is 80%
per frame, not the documented 15–20% (the code's own comment still says
"2 in 11 chance"); only the Rain threshold (draw < 15, i.e. 14%) is close to
the documented range. -/
theorem c6_trains_spawn_threshold_is_80 :
    NEW_TRAIN_PROBABILITY_PCT = 80 ∧
    NEW_RAIN_DROP_PCT = 15 ∧
    (NeopixelTrains.move
        { strip := { leds := 4, overscan := 1, brightness := 0 },
          colors := [BLUE], maxTrains := MAX_TRAINS }
        { r := 50, width := 8, colorIdx := 0, speed := 1 }
        (NeopixelTrains.reinit
          { expired := true, trains := [], display := [] })).trains.length
      = 1 ∧
    20 < NEW_TRAIN_PROBABILITY_PCT := by
  refine ⟨rfl, rfl, ?_, by decide⟩
  decide

/-- C10: the scheduler's pool `effects` is exactly the Trains, Stripes and
Rain instances; it contains no Stars instance, while the three
`stars_effects` instances are built at startup but left out of the pool. -/
theorem c10_stars_never_scheduled :
    effects = trains_effects ++ stripes_effects ++ rain_effects ∧
    effects.all (fun e => !(EffectSpec.isStars e)) = true ∧
    effects.length = 12 ∧
    stars_effects.length = 3 ∧
    stars_effects.all EffectSpec.isStars = true := by
  refine ⟨rfl, ?_, ?_, ?_, ?_⟩ <;> decide
